import Mathlib

/-!
# Verification of spotcli core semantics

A shallow embedding of the algorithmic core of the `spotcli` repository:

* `spotcli/utils/filter.py` — the string matcher (`filter`);
* `spotcli/tasks.py` and `spotcli/configuration/tasks.py` — target-list
  flattening (`TargetList.data`) and task fan-out (`RollTask.run`);
* `spotcli/utils/elastigroup.py` — the `Elastigroup` resource: lazily cached
  descriptor, `roll`, `suspend`/`unsuspend`, `scale_up`/`scale_down`.

Remote RPCs issued by the code are modelled as values of a `Call` type; a
function that can raise a Python exception returns `Option`/`Except`.
Machine arithmetic is modelled over `Int`/`ℚ`; Python `int()` truncation
toward zero is `pyInt`.
-/

namespace SpotCLI

/-! ## Python-semantics helpers -/

/-- Python `int()` applied to an exact numeric value: truncation toward zero. -/
def pyInt (q : ℚ) : Int :=
  if 0 ≤ q then ⌊q⌋ else ⌈q⌉

/-- Parse a decimal digit. -/
def digitVal (c : Char) : Option Nat :=
  if c.isDigit then some (c.toNat - '0'.toNat) else none

/-- Parse a non-empty all-digit character list as a natural number
(accumulator form).  Any non-digit makes the parse fail. -/
def parseDigits : List Char → Nat → Option Nat
  | [], acc => some acc
  | c :: cs, acc =>
    match digitVal c with
    | some d => parseDigits cs (acc * 10 + d)
    | none => none

/-- Python `int(s)` on a string: digits only (no sign needed by this code
base); the empty string or any non-digit raises `ValueError`, modelled as
`none`. -/
def parseInt (s : String) : Option Int :=
  match s.data with
  | [] => none
  | cs => (parseDigits cs 0).map Int.ofNat

/-- Strip leading characters equal to `'%'` from a character list. -/
def dropPct : List Char → List Char
  | [] => []
  | c :: cs => if c = '%' then dropPct cs else c :: cs

/-- Python `s.strip("%")`: remove `'%'` characters from both ends. -/
def stripPct (s : String) : String :=
  ⟨(dropPct (dropPct s.data.reverse).reverse)⟩

/-! ## Matcher: `spotcli/utils/filter.py`, `filter`

`filter(items, query)` starts from the empty set and, for each query
string, unions in three subsets of `items`: exact equality, substring
containment (`query_item in item`), and a case-insensitive regular
expression search.  The regular-expression search (`re.compile(query_item,
re.IGNORECASE | re.ASCII).search(item)`) is an external-library primitive;
it is a parameter `rmatch` of the embedding.  Nothing proved below depends
on its behaviour. -/

/-- Python `needle in hay` on strings: substring containment. -/
def strContainsSub (needle hay : String) : Bool :=
  decide (needle.data <:+: hay.data)

/-- One iteration of the `for query_item in query` loop body: the union of
the exact-match, substring-match and regex-match subsets of `items` for a
single query string.  `rmatch q item` models `re.search` with the compiled
case-insensitive pattern of `q`. -/
def filterOne (rmatch : String → String → Bool) (items : List String)
    (q : String) : Finset String :=
  (items.filter (fun item => q == item)).toFinset ∪
    (items.filter (fun item => strContainsSub q item)).toFinset ∪
    (items.filter (fun item => rmatch q item)).toFinset

/-- Source `filter(items, query)` for a query list: fold of `filterOne` unions
starting from the empty set, exactly as the source loop accumulates into
`matches`. -/
def filterFn (rmatch : String → String → Bool) (items : List String)
    (query : List String) : Finset String :=
  query.foldl (fun acc q => acc ∪ filterOne rmatch items q) ∅

/-! ## TargetList flattening: `spotcli/configuration/tasks.py`, `TargetList.data`

`TargetList.data` defines a helper `reduce(array, result=[])` inside the
property body and calls `reduce(self.targets)` once.  `reduce` wraps a bare
string into a one-element list, then iterates: a string item that is a key
of `self.aliases` is expanded recursively (an `Alias` is a `UserList` over
its target strings), any other string is appended to `result`, and a nested
list is flattened recursively into the same `result`.

Tokens are strings or nested lists; an alias table maps names to lists of
target strings (the `targets` field of an `Alias`).  Python's unbounded
recursion (cyclic alias graphs never terminate) is modelled by a fuel
parameter: `none` means the recursion budget ran out. -/

/-- A token of a target list: a literal/alias string or a nested list. -/
inductive Token where
  | str (s : String)
  | list (ts : List Token)

/-- The alias table: name to target-string list (`Alias.targets`). -/
abbrev AliasTable := List (String × List String)

/-- Lookup modelling `item in self.aliases` / `self.aliases[item]`. -/
def lookupAlias : AliasTable → String → Option (List String)
  | [], _ => none
  | (n, ts) :: rest, s => if s = n then some ts else lookupAlias rest s

/-- The `reduce` helper of `TargetList.data`, in accumulator form: `acc` is
the `result` list, appended to in place by the source.  Fuel bounds the
recursion depth (and loop progress); exhaustion returns `none`. -/
def reduceToks : Nat → AliasTable → List Token → List String →
    Option (List String)
  | 0, _, _, _ => none
  | _ + 1, _, [], acc => some acc
  | fuel + 1, al, Token.str s :: rest, acc =>
    (match lookupAlias al s with
     | some ts => (reduceToks fuel al (ts.map Token.str) acc).bind
         fun acc2 => reduceToks fuel al rest acc2
     | none => reduceToks fuel al rest (acc ++ [s]))
  | fuel + 1, al, Token.list ts :: rest, acc =>
    (reduceToks fuel al ts acc).bind fun acc2 => reduceToks fuel al rest acc2

/-- Spec-side definition (for the refinement comparison), following the
spec's words: depth-first expansion producing the order-preserving
flattening, with each alias reference replaced by the expansion of its
target list and nested lists flattened in place.  Same fuel discipline as
`reduceToks`, but built by concatenation, with no accumulator. -/
def specFlatten : Nat → AliasTable → List Token → Option (List String)
  | 0, _, _ => none
  | _ + 1, _, [] => some []
  | fuel + 1, al, Token.str s :: rest =>
    (match lookupAlias al s with
     | some ts => (specFlatten fuel al (ts.map Token.str)).bind
         fun l1 => (specFlatten fuel al rest).map fun l2 => l1 ++ l2
     | none => (specFlatten fuel al rest).map fun l2 => s :: l2)
  | fuel + 1, al, Token.list ts :: rest =>
    (specFlatten fuel al ts).bind
      fun l1 => (specFlatten fuel al rest).map fun l2 => l1 ++ l2

/-- One evaluation of the `data` property, up to the flattening step: the
flat pattern list handed to `Elastigroup.find`.  The helper `reduce` is
re-defined by the `def` statement on every evaluation of the property, so
its default accumulator `result=[]` is evaluated afresh each time (Python
evaluates default arguments when the `def` executes); hence every
evaluation starts from an empty accumulator.  A bare-string target is
wrapped into a one-element list by `reduce`. -/
def dataPatterns (fuel : Nat) (al : AliasTable) : Token → Option (List String)
  | Token.str s => reduceToks fuel al [Token.str s] []
  | Token.list ts => reduceToks fuel al ts []

/-- Successive first-time `data` evaluations of several distinct
`TargetList` instances (over the same alias table), in order.  Each
evaluation defines a fresh `reduce` closure with a fresh default
accumulator, so the evaluations share no state. -/
def dataSequence (fuel : Nat) (al : AliasTable) (instances : List Token) :
    List (Option (List String)) :=
  instances.map (dataPatterns fuel al)

/-- The aliases of the worked example: `testA -> ["a","b","c"]`,
`testB -> ["testA","d","e"]`. -/
def demoAliases : AliasTable :=
  [("testA", ["a", "b", "c"]), ("testB", ["testA", "d", "e"])]

/-! ## Elastigroup: `spotcli/utils/elastigroup.py`

The descriptor returned by `spot.get_elastigroup` is modelled by
`GroupData` (the stanzas this code base reads: capacity and the scaling
policy names per direction).  Remote RPCs are recorded as `Call` values. -/

/-- The `capacity` stanza of a group descriptor. -/
structure Capacity where
  minimum : Int
  maximum : Int
  target : Int
deriving DecidableEq

/-- The slice of the group descriptor the code reads: capacity plus the
`policy_name` lists under `scaling.down` / `scaling.up` (in descriptor
order). -/
structure GroupData where
  gname : String
  capacity : Capacity
  scalingDown : List String
  scalingUp : List String
deriving DecidableEq

/-- A remote RPC issued through the Spotinst client. -/
inductive Call where
  | updateElastigroup (minimum maximum target : Option Int)
  | rollGroup (batchPct : Int) (graceSec : Int)
  | suspendProcess (names : List String)
  | suspendScalingPolicies (policy : String)
  | removeSuspendedProcess (names : List String)
  | resumeSuspendedScalingPolicies (policy : String)
  | scaleUp (amount : Int)
  | scaleDown (amount : Int)
deriving DecidableEq

/-- The `ElastigroupProcess` enumeration, in declaration order. -/
inductive ElastigroupProcess where
  | AUTO_SCALE
  | AUTO_HEALING
  | OUT_OF_STRATEGY
  | PREVENTIVE_REPLACEMENT
  | REVERT_PREFERRED
  | SCHEDULING
  | AUTO_SCALE_DOWN
  | AUTO_SCALE_UP
deriving DecidableEq

/-- A Python value as far as this code manipulates enum `value`s: an
integer or a string. -/
inductive PyVal where
  | int (n : Int)
  | str (s : String)
deriving DecidableEq

/-- Python exceptions raised by the embedded code paths. -/
inductive PyError where
  | attributeError
  | valueError
  | typeError
deriving DecidableEq

/-- Enum `member.value`: the members are declared with `enum.auto()`, which
assigns the successive *integers* 1..8 in declaration order. -/
def ElastigroupProcess.value : ElastigroupProcess → PyVal
  | .AUTO_SCALE => .int 1
  | .AUTO_HEALING => .int 2
  | .OUT_OF_STRATEGY => .int 3
  | .PREVENTIVE_REPLACEMENT => .int 4
  | .REVERT_PREFERRED => .int 5
  | .SCHEDULING => .int 6
  | .AUTO_SCALE_DOWN => .int 7
  | .AUTO_SCALE_UP => .int 8

/-- Enum `member.name`. -/
def ElastigroupProcess.pname : ElastigroupProcess → String
  | .AUTO_SCALE => "AUTO_SCALE"
  | .AUTO_HEALING => "AUTO_HEALING"
  | .OUT_OF_STRATEGY => "OUT_OF_STRATEGY"
  | .PREVENTIVE_REPLACEMENT => "PREVENTIVE_REPLACEMENT"
  | .REVERT_PREFERRED => "REVERT_PREFERRED"
  | .SCHEDULING => "SCHEDULING"
  | .AUTO_SCALE_DOWN => "AUTO_SCALE_DOWN"
  | .AUTO_SCALE_UP => "AUTO_SCALE_UP"

/-- The characters after the last underscore of a string
(`s.rsplit("_", 1)[-1]`; the whole string when no underscore occurs). -/
def afterLastUnderscore (s : String) : String :=
  ⟨go s.data []⟩
where
  go : List Char → List Char → List Char
    | [], acc => acc.reverse
    | c :: cs, acc => if c = '_' then go cs [] else go cs (c :: acc)

/-- Python `s.lower()` (ASCII case mapping, all this code needs). -/
def lowerStr (s : String) : String :=
  ⟨s.data.map Char.toLower⟩

/-- Python `x.rsplit("_", 1)[-1].lower()` as applied to an enum `value`: defined
on strings; on an integer it raises `AttributeError` (`int` has no
`rsplit`). -/
def PyVal.rsplitLastLower : PyVal → Except PyError String
  | .str s => .ok (lowerStr (afterLastUnderscore s))
  | .int _ => .error .attributeError

/-- Model of `self._group["scaling"].get(kind, [])` for the computed direction
string. -/
def scalingGet (g : GroupData) (kind : String) : List String :=
  if kind = "down" then g.scalingDown
  else if kind = "up" then g.scalingUp
  else []

/-- Translation of `Elastigroup.suspend(process)` from the source: for the two
virtual scaling members it computes
`ElastigroupProcess(process).value.rsplit("_", 1)[-1].lower()` — which
raises `AttributeError`, because `value` is an `enum.auto()` integer — and
only then would it read the descriptor's policy list and loop one
`suspend_scaling_policies` call per policy; for every other member it
issues the single discrete `suspend_process` call.  The
`except SpotinstClientException` wrapper around the loop concerns errors
raised by the remote calls themselves, which the recorded-call model never
raises. -/
def suspend (g : GroupData) (p : ElastigroupProcess) :
    Except PyError (List Call) :=
  if p = .AUTO_SCALE_DOWN ∨ p = .AUTO_SCALE_UP then
    (p.value.rsplitLastLower).map fun kind =>
      (scalingGet g kind).map Call.suspendScalingPolicies
  else
    .ok [Call.suspendProcess [p.pname]]

/-- Translation of `Elastigroup.unsuspend(process)`: same structure as `suspend`, with
`resume_suspended_scaling_policies` / `remove_suspended_process`. -/
def unsuspend (g : GroupData) (p : ElastigroupProcess) :
    Except PyError (List Call) :=
  if p = .AUTO_SCALE_DOWN ∨ p = .AUTO_SCALE_UP then
    (p.value.rsplitLastLower).map fun kind =>
      (scalingGet g kind).map Call.resumeSuspendedScalingPolicies
  else
    .ok [Call.removeSuspendedProcess [p.pname]]

/-- The intended virtual-member behaviour, as the spec and the repo's own
test (`test_elastigroup_suspend_scaling_policy`) describe it: derive the
direction by applying the rsplit/lower computation to the member *name*
(the enum value in the historical string-valued variant), then issue one
suspend call per configured policy of that direction. -/
def suspendByName (g : GroupData) (p : ElastigroupProcess) : List Call :=
  if p = .AUTO_SCALE_DOWN ∨ p = .AUTO_SCALE_UP then
    (scalingGet g (lowerStr (afterLastUnderscore p.pname))).map
      Call.suspendScalingPolicies
  else
    [Call.suspendProcess [p.pname]]

/-- The test fixture's group: target capacity 100, two down-scaling
policies, one up-scaling policy. -/
def twoDownGroup : GroupData :=
  { gname := "test-elastigroup"
    capacity := { minimum := 0, maximum := 200, target := 100 }
    scalingDown := ["SCALING_POLICY_DOWN_1", "SCALING_POLICY_DOWN_2"]
    scalingUp := ["SCALING_POLICY_UP_1"] }

/-- Variant of `twoDownGroup` with no down-scaling policies configured. -/
def noDownGroup : GroupData :=
  { twoDownGroup with scalingDown := [] }

/-! ### `roll`, `scale_up`, `scale_down`

These read only the cached descriptor's target capacity; the pure cores
below take that target as an argument (the lazy-cache state machine for
claim C6 composes them with the descriptor fetch).  A Python argument that
may be `None`, an `int` or a `str` is a `PyArg`. -/

/-- An argument that may be `None`, an integer or a string. -/
inductive PyArg where
  | none
  | int (n : Int)
  | str (s : String)
deriving DecidableEq

/-- Python truthiness of a `PyArg` (`if not batch: ...`). -/
def pyTruthy : PyArg → Bool
  | .none => false
  | .int n => n != 0
  | .str s => s != ""

/-- Python `str(x)` of a `PyArg`. -/
def pyStr : PyArg → String
  | .none => "None"
  | .int n => toString n
  | .str s => s

/-- Python `"%" in str(x)`: `str()` of `None` (`"None"`) or of an integer (an
optional minus sign and decimal digits) never contains `'%'`, so only a
string argument can. -/
def containsPct : PyArg → Bool
  | .str s => s.data.contains '%'
  | _ => false

/-- Seconds per unit letter of the duration grammar used by this code
(`durations` library), e.g. `m` = 60. -/
def unitSeconds (c : Char) : Option Nat :=
  if c = 's' then some 1
  else if c = 'm' then some 60
  else if c = 'h' then some 3600
  else if c = 'd' then some 86400
  else Option.none

/-- Consume a maximal digit run, returning its value and the rest. -/
def readDigits : List Char → Nat → Nat × List Char
  | [], acc => (acc, [])
  | c :: cs, acc =>
    match digitVal c with
    | some d => readDigits cs (acc * 10 + d)
    | Option.none => (acc, c :: cs)

/-- Model of `durations.Duration(s).to_seconds()` for the expression forms this code
passes: a sequence of `<number><unit>` groups (`"1m45s"`, `"5m"`), or a
bare number meaning seconds.  Fuel is bounded by the string length; every
group consumes at least one character. -/
def parseDurationAux : Nat → List Char → Option Nat
  | 0, _ => Option.none
  | _ + 1, [] => some 0
  | fuel + 1, c :: cs =>
    match digitVal c with
    | Option.none => Option.none
    | some d =>
      match readDigits cs d with
      | (n, []) => some n
      | (n, u :: rest) =>
        match unitSeconds u with
        | some k => (parseDurationAux fuel rest).map fun m => n * k + m
        | Option.none => Option.none

/-- Whole seconds of a duration expression string (`none` = parse error,
which the library surfaces as an exception). -/
def durationSeconds (s : String) : Option Nat :=
  parseDurationAux (s.length + 1) s.data

/-- The batch-size resolution of `Elastigroup.roll`: a falsy batch becomes
`"20%"`; a percentage string is stripped and parsed; anything else is
parsed as an absolute count and converted by
`int(int(batch) / target * 100)` (`none` models `ValueError` on a bad
parse or `ZeroDivisionError` on target 0). -/
def rollBatchPct (target : Int) (batch : PyArg) : Option Int :=
  let b := if pyTruthy batch then batch else PyArg.str "20%"
  if containsPct b then
    match b with
    | .str s => parseInt (stripPct s)
    | _ => Option.none
  else
    match b with
    | .int n =>
      if target = 0 then Option.none
      else some (pyInt ((n : ℚ) / (target : ℚ) * 100))
    | .str s =>
      (parseInt s).bind fun n =>
        if target = 0 then Option.none
        else some (pyInt ((n : ℚ) / (target : ℚ) * 100))
    | .none => Option.none

/-- The grace resolution of `Elastigroup.roll`: a falsy grace becomes
`"5m"`; an integer is already seconds; a string goes through the duration
parser; `int(...)` of the whole seconds is the identity. -/
def rollGraceSec (grace : PyArg) : Option Int :=
  let g := if pyTruthy grace then grace else PyArg.str "5m"
  match g with
  | .int n => some n
  | .str s => (durationSeconds s).map Int.ofNat
  | .none => Option.none

/-- Translation of `Elastigroup.roll(batch, grace)` on a descriptor with the given target
capacity: resolves batch then grace, and issues the single
`spot.roll_group` call with `Roll(batch_size_percentage, grace_period)`;
`none` models an exception raised before the call. -/
def roll (target : Int) (batch grace : PyArg) : Option Call :=
  (rollBatchPct target batch).bind fun bp =>
    (rollGraceSec grace).map fun gs => Call.rollGroup bp gs

/-- The amount resolution shared by `scale_up` and `scale_down`: a
percentage string is resolved by `int(int(amount.strip("%")) / 100 *
target)`; anything else is `int(amount)`. -/
def resolveAmount (target : Int) (amount : PyArg) : Option Int :=
  if containsPct amount then
    match amount with
    | .str s =>
      (parseInt (stripPct s)).map fun p => pyInt ((p : ℚ) / 100 * (target : ℚ))
    | _ => Option.none
  else
    match amount with
    | .int n => some n
    | .str s => parseInt s
    | .none => Option.none

/-- Translation of `Elastigroup.scale_up(amount)` on a descriptor with the given target
capacity: resolve the amount; a resolved amount of exactly 0 returns
without any remote call; otherwise one `scale_elastigroup_up` call. -/
def scale_up (target : Int) (amount : PyArg) : Option (List Call) :=
  (resolveAmount target amount).map fun a =>
    if a = 0 then [] else [Call.scaleUp a]

/-- Translation of `Elastigroup.scale_down(amount)`: symmetric to `scale_up`. -/
def scale_down (target : Int) (amount : PyArg) : Option (List Call) :=
  (resolveAmount target amount).map fun a =>
    if a = 0 then [] else [Call.scaleDown a]

/-! ## Task fan-out: `spotcli/tasks.py`, `RollTask.run`

`run()` creates one unit of work per target; each unit runs
`work(target, batch, grace, console)`:

```
try:
    target.roll(batch, grace)
    console.print(f"Started roll on ...{target.name}... with ..."
        f"{self.batch if '%' in str(self.batch) else self.batch + ' instances'}...")
    return True
except Exception:
    console.print(f"...Failed to roll ...{target.name}...")
    console.print_exception()
    return False
```

The success report is still inside the `try`: it reads `target.name` (a
lazy descriptor fetch) and evaluates the batch fragment, whose
`self.batch + ' instances'` raises `TypeError` whenever `self.batch` is
an integer or `None`; any exception there is caught by the same handler.
The handler's own error report reads `target.name` again; if that read
raises, the exception escapes `work` (the pool then records that unit as
errored; siblings and the join are unaffected).  The `ThreadLoom`
joins every unit and collects the per-unit result; the `threading`
variant in `spotcli/configuration/tasks.py` joins identically but
discards results.  Units are independent — each touches only its own
target — so the joined result is modelled as the per-target record list in
target order.  A target's `rollOutcome` is the result the mutating remote
roll call produces for it, and `nameOutcome` the result of reading
`target.name` (abstracted as deterministic per target). -/

/-- Equality of remote-call results is decidable (needed to evaluate
witnesses). -/
def exceptEqDec {α : Type} [DecidableEq α] : DecidableEq (Except String α) :=
  fun a b =>
    match a, b with
    | Except.ok x, Except.ok y =>
      if h : x = y then isTrue (by rw [h])
      else isFalse (fun hh => by cases hh; exact h rfl)
    | Except.ok _, Except.error _ => isFalse (fun h => by cases h)
    | Except.error _, Except.ok _ => isFalse (fun h => by cases h)
    | Except.error e1, Except.error e2 =>
      if h : e1 = e2 then isTrue (by rw [h])
      else isFalse (fun hh => by cases hh; exact h rfl)

instance {α : Type} [DecidableEq α] : DecidableEq (Except String α) :=
  exceptEqDec

/-- One fan-out target: its identity, the result the mutating remote roll
call would produce for it, and the result of reading its `name` property
(`ok` the name, or the error of a failed lazy descriptor fetch). -/
structure RollTarget where
  id : String
  rollOutcome : Except String Unit
  nameOutcome : Except String String
deriving DecidableEq

/-- Python `x + " instances"`: string concatenation when `x` is a string;
an integer or `None` left operand raises `TypeError`. -/
def pyAddInstances : PyArg → Except PyError String
  | PyArg.str s => Except.ok (s ++ " instances")
  | PyArg.int _ => Except.error PyError.typeError
  | PyArg.none => Except.error PyError.typeError

/-- The batch fragment of the success report:
`self.batch if '%' in str(self.batch) else self.batch + ' instances'`. -/
def batchFragment (batch : PyArg) : Except PyError String :=
  if containsPct batch then Except.ok (pyStr batch) else pyAddInstances batch

/-- Translation of the `work` closure of `RollTask.run` for one unit, the
whole try/except body.  `some b` is the value the unit returns; `none`
means the except handler itself raised (its `target.name` read failed), so
the exception escapes `work` and the pool records the unit as errored.
Cases: a successful roll whose report evaluates returns `True`; a raise
anywhere in the `try` — the roll itself, the report's name read, or the
batch fragment's `TypeError` — falls to the handler, which returns `False`
when its own name read succeeds. -/
def workRoll (batch : PyArg) (t : RollTarget) : Option Bool :=
  match t.rollOutcome, t.nameOutcome with
  | Except.ok _, Except.ok _ =>
    match batchFragment batch with
    | Except.ok _ => some true
    | Except.error _ => some false
  | Except.ok _, Except.error _ => Option.none
  | Except.error _, Except.ok _ => some false
  | Except.error _, Except.error _ => Option.none

/-- Translation of `RollTask.run`: every target gets exactly one unit; all
units are joined and each is recorded as `(target identity, unit result)`,
where the result is the unit's returned Boolean or (`none`) its escaped
error. -/
def runRollTask (batch : PyArg) (targets : List RollTarget) :
    List (String × Option Bool) :=
  targets.map fun t => (t.id, workRoll batch t)

/-! ## Lazy descriptor cache: `Elastigroup._group` and the mutating calls

`_group` memoizes `spot.get_elastigroup(id)` in the `_group_data`
attribute (exception-based "not yet computed": `AttributeError` on first
access).  The state of one handle is the memoized cache, the count of
`get_elastigroup` calls, and — as an abstract model of the remote side —
the descriptor the server would currently return.  Each operation touches
the cache exactly where the source reads `self._group` / `self.capacity`:

* `set_capacity` only issues `update_elastigroup` (no descriptor access);
  the server applies the patch remotely;
* `roll` reads `self.capacity` only in the non-percentage batch branch,
  after `int(batch)` succeeds;
* `suspend`/`unsuspend` on the virtual members raise `AttributeError`
  before the descriptor read (claim C1), and on discrete members never
  read it;
* `scale_up`/`scale_down` read `self.capacity` only in the
  percentage branch, after `int(amount.strip("%"))` succeeds; the server
  then adjusts the remote target capacity. -/

/-- The state of one `Elastigroup` handle plus the abstract remote side. -/
structure EGState where
  cache : Option GroupData
  fetches : Nat
  remote : GroupData
deriving DecidableEq

/-- The `_group` property: return the memoized descriptor, or fetch it
from the remote side, memoize it and count the fetch. -/
def fetchGroup (st : EGState) : GroupData × EGState :=
  match st.cache with
  | some d => (d, st)
  | Option.none =>
    (st.remote,
      { st with cache := some st.remote, fetches := st.fetches + 1 })

/-- A partial capacity update (`set_capacity` argument). -/
structure CapacityPatch where
  minimum : Option Int
  maximum : Option Int
  target : Option Int
deriving DecidableEq

/-- Remote-side application of a capacity patch (abstract server model). -/
def applyPatch (c : Capacity) (p : CapacityPatch) : Capacity :=
  { minimum := p.minimum.getD c.minimum
    maximum := p.maximum.getD c.maximum
    target := p.target.getD c.target }

/-- Remote-side effect of a scale call (abstract server model). -/
def bumpTarget (g : GroupData) (n : Int) : GroupData :=
  { g with capacity := { g.capacity with target := g.capacity.target + n } }

/-- One operation on a handle. -/
inductive EGOp where
  | readCapacity
  | setCapacity (p : CapacityPatch)
  | rollOp (batch grace : PyArg)
  | suspendOp (p : ElastigroupProcess)
  | unsuspendOp (p : ElastigroupProcess)
  | scaleUpOp (amount : PyArg)
  | scaleDownOp (amount : PyArg)
deriving DecidableEq

/-- Remote-side effect shared by `scale_up`/`scale_down` modulo sign. -/
def scaleStep (st : EGState) (a : PyArg) (sign : Int) : EGState :=
  if containsPct a then
    match a with
    | PyArg.str s =>
      match parseInt (stripPct s) with
      | some p =>
        let fs := fetchGroup st
        let n := pyInt ((p : ℚ) / 100 * (fs.1.capacity.target : ℚ))
        if n = 0 then fs.2
        else { fs.2 with remote := bumpTarget fs.2.remote (sign * n) }
      | Option.none => st
    | _ => st
  else
    match a with
    | PyArg.int n =>
      if n = 0 then st else { st with remote := bumpTarget st.remote (sign * n) }
    | PyArg.str s =>
      match parseInt s with
      | some n =>
        if n = 0 then st else { st with remote := bumpTarget st.remote (sign * n) }
      | Option.none => st
    | PyArg.none => st

/-- The state transition of one operation. -/
def stepOp (st : EGState) : EGOp → EGState
  | EGOp.readCapacity => (fetchGroup st).2
  | EGOp.setCapacity p =>
    { st with remote :=
        { st.remote with capacity := applyPatch st.remote.capacity p } }
  | EGOp.rollOp batch _ =>
    match (if pyTruthy batch then batch else PyArg.str "20%") with
    | PyArg.int _ => (fetchGroup st).2
    | PyArg.str s =>
      if s.data.contains '%' then st
      else
        match parseInt s with
        | some _ => (fetchGroup st).2
        | Option.none => st
    | PyArg.none => st
  | EGOp.suspendOp _ => st
  | EGOp.unsuspendOp _ => st
  | EGOp.scaleUpOp a => scaleStep st a 1
  | EGOp.scaleDownOp a => scaleStep st a (-1)

/-- A whole run of operations on one handle. -/
def runOps (st : EGState) (ops : List EGOp) : EGState :=
  ops.foldl stepOp st

/-- A handle state whose descriptor is already cached. -/
def cachedHandle : EGState :=
  { cache := some twoDownGroup, fetches := 1, remote := noDownGroup }

/-- A handle state that has never fetched its descriptor. -/
def freshHandle : EGState :=
  { cache := Option.none, fetches := 0, remote := noDownGroup }

/-- A run of mutating operations followed by a capacity read. -/
def mutatingOps : List EGOp :=
  [EGOp.setCapacity ⟨some 1, some 2, some 3⟩,
    EGOp.scaleUpOp (PyArg.int 5), EGOp.readCapacity]

/-- A run with several descriptor reads. -/
def readingOps : List EGOp :=
  [EGOp.readCapacity, EGOp.rollOp (PyArg.int 1) PyArg.none,
    EGOp.readCapacity]


/-! ## Lemmas and claim theorems -/

lemma filterFn_foldl_from (rmatch : String → String → Bool)
    (items : List String) (query : List String) (acc : Finset String) :
    query.foldl (fun a q => a ∪ filterOne rmatch items q) acc =
      acc ∪ filterFn rmatch items query := by
  induction query generalizing acc with
  | nil => simp [filterFn]
  | cons q qs ih =>
    simp only [List.foldl_cons, filterFn] at *
    rw [ih, ih (∅ ∪ filterOne rmatch items q)]
    simp [Finset.union_assoc]

lemma filterFn_append (rmatch : String → String → Bool)
    (items : List String) (q₁ q₂ : List String) :
    filterFn rmatch items (q₁ ++ q₂) =
      filterFn rmatch items q₁ ∪ filterFn rmatch items q₂ := by
  simp only [filterFn, List.foldl_append]
  rw [filterFn_foldl_from]
  rfl

lemma filterFn_cons (rmatch : String → String → Bool)
    (items : List String) (q : String) (qs : List String) :
    filterFn rmatch items (q :: qs) =
      filterOne rmatch items q ∪ filterFn rmatch items qs := by
  simp only [filterFn, List.foldl_cons]
  rw [filterFn_foldl_from]
  simp only [Finset.empty_union]
  rfl

lemma filterFn_singleton (rmatch : String → String → Bool)
    (items : List String) (q : String) :
    filterFn rmatch items [q] = filterOne rmatch items q := by
  rw [filterFn_cons]
  simp [filterFn]

/-- Claim C7.  For every candidate list and every regex oracle, the match
result for a concatenated query list equals the set union of the results
for the two parts; a single query contributes exactly the union of its
exact-equality, substring and regex match subsets (so a query matching
zero candidates contributes the empty set to the accumulated union). -/
theorem filter_union_law (rmatch : String → String → Bool)
    (items : List String) (q₁ q₂ : List String) (q : String) :
    filterFn rmatch items (q₁ ++ q₂) =
        filterFn rmatch items q₁ ∪ filterFn rmatch items q₂ ∧
      filterFn rmatch items [q] =
        (items.filter (fun item => q == item)).toFinset ∪
          (items.filter (fun item => strContainsSub q item)).toFinset ∪
          (items.filter (fun item => rmatch q item)).toFinset ∧
      filterFn rmatch items (q :: q₁) =
        filterOne rmatch items q ∪ filterFn rmatch items q₁ := by
  refine ⟨filterFn_append rmatch items q₁ q₂, ?_, filterFn_cons rmatch items q q₁⟩
  rw [filterFn_singleton]
  rfl

lemma strContainsSub_empty (hay : String) : strContainsSub "" hay = true := by
  simp [strContainsSub]

lemma filterOne_subset (rmatch : String → String → Bool)
    (items : List String) (q : String) :
    filterOne rmatch items q ⊆ items.toFinset := by
  intro x hx
  simp only [filterOne, Finset.mem_union, List.mem_toFinset, List.mem_filter] at hx
  rcases hx with (h | h) | h <;>
    exact List.mem_toFinset.mpr h.1

/-- Claim C10.  Matching with a query list containing just the empty string
returns every candidate: the empty string is a substring of every string,
so the substring subset is all of `items`, and every other subset is a
subset of `items`. -/
theorem filter_empty_query_matches_all (rmatch : String → String → Bool)
    (items : List String) :
    filterFn rmatch items [""] = items.toFinset := by
  rw [filterFn_singleton]
  apply Finset.Subset.antisymm (filterOne_subset rmatch items "")
  intro x hx
  simp only [filterOne, Finset.mem_union, List.mem_toFinset, List.mem_filter]
  refine Or.inl (Or.inr ⟨List.mem_toFinset.mp hx, strContainsSub_empty x⟩)

lemma reduceToks_eq_specFlatten (fuel : Nat) :
    ∀ (al : AliasTable) (ts : List Token) (acc : List String),
      reduceToks fuel al ts acc =
        (specFlatten fuel al ts).map fun l => acc ++ l := by
  induction fuel with
  | zero => intro al ts acc; rfl
  | succ fuel ih =>
    intro al ts acc
    match ts with
    | [] => simp [reduceToks, specFlatten]
    | Token.str s :: rest =>
      simp only [reduceToks, specFlatten]
      cases lookupAlias al s with
      | none =>
        dsimp only
        rw [ih al rest (acc ++ [s])]
        cases specFlatten fuel al rest with
        | none => rfl
        | some l2 => simp
      | some tsA =>
        dsimp only
        rw [ih al (tsA.map Token.str) acc]
        cases specFlatten fuel al (tsA.map Token.str) with
        | none => rfl
        | some l1 =>
          simp only [Option.map_some', Option.some_bind]
          rw [ih al rest (acc ++ l1)]
          cases specFlatten fuel al rest with
          | none => rfl
          | some l2 => simp
    | Token.list tsN :: rest =>
      simp only [reduceToks, specFlatten]
      rw [ih al tsN acc]
      cases specFlatten fuel al tsN with
      | none => rfl
      | some l1 =>
        simp only [Option.map_some', Option.some_bind]
        rw [ih al rest (acc ++ l1)]
        cases specFlatten fuel al rest with
        | none => rfl
        | some l2 => simp

/-- Claim C2.  Target resolution refines the spec's depth-first flattening:
for every fuel budget, alias table, token list and accumulator state, the
source's accumulator-passing `reduce` produces exactly the accumulator
followed by the spec-side flattening (so a data evaluation, which starts
from the empty accumulator, is exactly the flattening); and on the worked
examples, resolving `["testB"]` under the demo aliases yields
`["a","b","c","d","e"]`, and `["a", ["b", ["c"]], "d"]` with no aliases
yields `["a","b","c","d"]`. -/
theorem targetList_flattening (fuel : Nat) (al : AliasTable) (ts : List Token)
    (acc : List String) :
    reduceToks fuel al ts acc =
        ((specFlatten fuel al ts).map fun l => acc ++ l) ∧
      dataPatterns 10 demoAliases (Token.list [Token.str "testB"]) =
        some ["a", "b", "c", "d", "e"] ∧
      dataPatterns 10 []
          (Token.list [Token.str "a",
            Token.list [Token.str "b", Token.list [Token.str "c"]],
            Token.str "d"]) =
        some ["a", "b", "c", "d"] := by
  refine ⟨reduceToks_eq_specFlatten fuel al ts acc, by decide, by decide⟩

/-- Claim C8, counterexample.  Two distinct `TargetList` instances, the
first with targets `["a"]` and the second with targets `["b"]`, no aliases:
computing the second instance's `data` after the first yields `["b"]` —
it does not begin with the first instance's pattern `"a"` (the helper's
default accumulator is created afresh on every property evaluation because
the `def reduce` statement executes inside the property body, so nothing
is shared across invocations). -/
theorem targetList_no_shared_accumulator_cex :
    dataSequence 10 [] [Token.list [Token.str "a"], Token.list [Token.str "b"]] =
        [some ["a"], some ["b"]] ∧
      "a" ∉ (["b"] : List String) := by
  refine ⟨by decide, by decide⟩

/-- Claim C8, amended.  Each first-time `data` evaluation flattens with a
fresh (empty) accumulator and depends only on that instance's own targets:
the i-th result of a sequence of evaluations is the standalone flattening
of the i-th instance, for every position; in particular the second of two
instances (`["a"]` then `["b"]`) yields exactly `["b"]`. -/
theorem targetList_data_independent (fuel : Nat) (al : AliasTable)
    (instances : List Token) (i : Nat) :
    (dataSequence fuel al instances).get? i =
        (instances.get? i).map (dataPatterns fuel al) ∧
      dataSequence 10 []
          [Token.list [Token.str "a"], Token.list [Token.str "b"]] =
        [some ["a"], some ["b"]] := by
  refine ⟨?_, by decide⟩
  simp [dataSequence]

/-- Claim C1 (code bug).  On the group with two down-scaling policies,
`suspend(AUTO_SCALE_DOWN)` raises `AttributeError` before issuing any
remote call — `enum.auto()` made the member values integers, and an
integer has no `rsplit` — instead of issuing the two suspend-policy calls;
the same exception hits the zero-policy case (which the claim says is a
silent no-op).  `suspend(AUTO_HEALING)` does issue its single discrete
suspend-process call.  The intended name-derived variant yields exactly
the two suspend-policy calls in descriptor order, and zero calls when no
policy is configured. -/
theorem suspend_auto_scale_down_crashes :
    suspend twoDownGroup ElastigroupProcess.AUTO_SCALE_DOWN =
        Except.error PyError.attributeError ∧
      suspend noDownGroup ElastigroupProcess.AUTO_SCALE_DOWN =
        Except.error PyError.attributeError ∧
      suspend twoDownGroup ElastigroupProcess.AUTO_HEALING =
        Except.ok [Call.suspendProcess ["AUTO_HEALING"]] ∧
      suspendByName twoDownGroup ElastigroupProcess.AUTO_SCALE_DOWN =
        [Call.suspendScalingPolicies "SCALING_POLICY_DOWN_1",
          Call.suspendScalingPolicies "SCALING_POLICY_DOWN_2"] ∧
      suspendByName noDownGroup ElastigroupProcess.AUTO_SCALE_DOWN = [] := by
  refine ⟨rfl, rfl, rfl, by decide, by decide⟩

lemma pyInt_div_target_mul100 (n target : Int) (h0 : 0 ≤ n) (ht : 0 < target) :
    pyInt ((n : ℚ) / (target : ℚ) * 100) = (n * 100) / target := by
  obtain ⟨m, rfl⟩ := Int.eq_ofNat_of_zero_le ht.le
  have hm : (0 : ℚ) ≤ (m : ℚ) := by positivity
  have hq : (0 : ℚ) ≤ (n : ℚ) / ((m : ℤ) : ℚ) * 100 := by
    apply mul_nonneg (div_nonneg (by exact_mod_cast h0) (by push_cast; exact hm))
    norm_num
  rw [pyInt, if_pos hq]
  have h1 : (n : ℚ) / ((m : ℤ) : ℚ) * 100 = ((n * 100 : ℤ) : ℚ) / ((m : ℕ) : ℚ) := by
    push_cast
    ring
  rw [h1, Rat.floor_intCast_div_natCast]

lemma pyInt_pct_of_target (p target : Int) (hp : 0 ≤ p) (ht : 0 ≤ target) :
    pyInt ((p : ℚ) / 100 * (target : ℚ)) = (p * target) / 100 := by
  have hq : (0 : ℚ) ≤ (p : ℚ) / 100 * (target : ℚ) := by
    apply mul_nonneg (div_nonneg (by exact_mod_cast hp) (by norm_num))
    exact_mod_cast ht
  rw [pyInt, if_pos hq]
  have h1 : (p : ℚ) / 100 * (target : ℚ) =
      ((p * target : ℤ) : ℚ) / ((100 : ℕ) : ℚ) := by
    push_cast
    ring
  rw [h1, Rat.floor_intCast_div_natCast]
  norm_num

/-- Claim C3.  Against cached target capacity 100, `roll(20, "1m45s")`,
`roll("20", "1m45s")` and `roll("20%", "1m45s")` each issue exactly one
roll request with batch-size-percentage 20 and grace period 105 seconds;
omitting both arguments issues batch 20, grace 300; and in general a
truthy absolute batch count against a positive cached target resolves to
`(n * 100) / target` — percentage of the cached target with integer
truncation. -/
lemma rollBatchPct_int_pos (n target : Int) (hn : 0 < n) (ht : 0 < target) :
    rollBatchPct target (PyArg.int n) = some ((n * 100) / target) := by
  have htr : pyTruthy (PyArg.int n) = true := by
    simp [pyTruthy, hn.ne']
  simp only [rollBatchPct, htr, if_true, containsPct, Bool.false_eq_true,
    if_false, ht.ne', ite_false]
  rw [pyInt_div_target_mul100 n target hn.le ht]

lemma rollBatchPct_str20 :
    rollBatchPct 100 (PyArg.str "20") = some 20 := by
  have h : rollBatchPct 100 (PyArg.str "20") =
      some (pyInt (((20 : Int) : ℚ) / ((100 : Int) : ℚ) * 100)) := rfl
  rw [h, pyInt_div_target_mul100 20 100 (by norm_num) (by norm_num)]
  norm_num

theorem roll_batch_conversion (n target : Int) (hn : 0 < n) (ht : 0 < target) :
    roll 100 (PyArg.int 20) (PyArg.str "1m45s") = some (Call.rollGroup 20 105) ∧
      roll 100 (PyArg.str "20") (PyArg.str "1m45s") =
        some (Call.rollGroup 20 105) ∧
      roll 100 (PyArg.str "20%") (PyArg.str "1m45s") =
        some (Call.rollGroup 20 105) ∧
      roll 100 PyArg.none PyArg.none = some (Call.rollGroup 20 300) ∧
      rollBatchPct target (PyArg.int n) = some ((n * 100) / target) := by
  have h20 : rollBatchPct 100 (PyArg.int 20) = some 20 := by
    rw [rollBatchPct_int_pos 20 100 (by norm_num) (by norm_num)]
    norm_num
  refine ⟨?_, ?_, by decide, by decide, rollBatchPct_int_pos n target hn ht⟩
  · rw [roll, h20]
    decide
  · rw [roll, rollBatchPct_str20]
    decide

/-- Claim C3, witness. -/
theorem roll_batch_conversion_witness :
    roll 100 (PyArg.int 20) (PyArg.str "1m45s") = some (Call.rollGroup 20 105) ∧
      rollBatchPct 100 (PyArg.int 30) = some 30 := by
  have h := roll_batch_conversion 30 100 (by norm_num) (by norm_num)
  refine ⟨h.1, ?_⟩
  rw [h.2.2.2.2]
  decide

lemma rollBatchPct_falsy (t : Int) (b : PyArg) (hb : pyTruthy b = false) :
    rollBatchPct t b = some 20 := by
  simp only [rollBatchPct, hb, Bool.false_eq_true, if_false]
  rfl

lemma rollGraceSec_falsy (g : PyArg) (hg : pyTruthy g = false) :
    rollGraceSec g = some 300 := by
  simp only [rollGraceSec, hg, Bool.false_eq_true, if_false]
  rfl

/-- Claim C9, counterexample.  The truthy argument strings `"0%"` and
`"0s"` do request a roll with batch size 0 and grace period 0: the issued
request differs from the omitted-arguments request. -/
theorem roll_zero_request_cex :
    roll 100 (PyArg.str "0%") (PyArg.str "0s") = some (Call.rollGroup 0 0) ∧
      roll 100 PyArg.none PyArg.none = some (Call.rollGroup 20 300) ∧
      some (Call.rollGroup 0 0) ≠ some (Call.rollGroup 20 300) := by
  refine ⟨by decide, by decide, by decide⟩

/-- Claim C9, amended.  `roll` coerces every falsy batch argument (`None`,
the integer 0, the empty string) to the default batch `"20%"` and every
falsy grace argument to the default 300 seconds, so such falsy-argument
calls issue exactly the request of an argument-free `roll()`; however the
truthy strings `"0%"` and `"0s"` still resolve to batch 0 and grace 0, so
a caller can reach a zero batch or grace through a percentage/duration
string. -/
theorem roll_falsy_defaults (t : Int) (b g : PyArg)
    (hb : pyTruthy b = false) (hg : pyTruthy g = false) :
    roll t b g = some (Call.rollGroup 20 300) ∧
      roll t PyArg.none PyArg.none = some (Call.rollGroup 20 300) ∧
      roll 100 (PyArg.str "0%") (PyArg.str "0s") = some (Call.rollGroup 0 0) := by
  refine ⟨?_, ?_, by decide⟩
  · rw [roll, rollBatchPct_falsy t b hb, rollGraceSec_falsy g hg]
    rfl
  · rw [roll, rollBatchPct_falsy t PyArg.none rfl, rollGraceSec_falsy PyArg.none rfl]
    rfl

/-- Claim C9 (amended), witness. -/
theorem roll_falsy_defaults_witness :
    roll 100 (PyArg.int 0) (PyArg.str "") = some (Call.rollGroup 20 300) := by
  exact (roll_falsy_defaults 100 (PyArg.int 0) (PyArg.str "")
    (by decide) (by decide)).1

lemma resolveAmount_10pct :
    resolveAmount 100 (PyArg.str "10%") = some 10 := by
  have h : resolveAmount 100 (PyArg.str "10%") =
      some (pyInt (((10 : Int) : ℚ) / 100 * ((100 : Int) : ℚ))) := rfl
  rw [h, pyInt_pct_of_target 10 100 (by norm_num) (by norm_num)]
  norm_num

lemma resolveAmount_0pct :
    resolveAmount 100 (PyArg.str "0%") = some 0 := by
  have h : resolveAmount 100 (PyArg.str "0%") =
      some (pyInt (((0 : Int) : ℚ) / 100 * ((100 : Int) : ℚ))) := rfl
  rw [h, pyInt_pct_of_target 0 100 (by norm_num) (by norm_num)]
  norm_num

/-- Claim C4.  Against cached target capacity 100, `scale_up("10%")` and
`scale_up(10)` each issue the single scale-up call with absolute amount 10
(a percentage resolves against the cached target with truncation:
`pyInt(p/100 * t) = (p * t) / 100` for nonnegative `p`, `t`), and any
amount resolving to exactly 0 — `"0%"` included — issues no remote call
and raises no error; `scale_down` behaves symmetrically. -/
theorem scale_percentage_resolution (p t : Int) (hp : 0 ≤ p) (ht : 0 ≤ t)
    (a : PyArg) :
    scale_up 100 (PyArg.str "10%") = some [Call.scaleUp 10] ∧
      scale_up 100 (PyArg.int 10) = some [Call.scaleUp 10] ∧
      scale_up 100 (PyArg.str "0%") = some [] ∧
      scale_down 100 (PyArg.str "10%") = some [Call.scaleDown 10] ∧
      scale_down 100 (PyArg.int 10) = some [Call.scaleDown 10] ∧
      scale_down 100 (PyArg.str "0%") = some [] ∧
      pyInt ((p : ℚ) / 100 * (t : ℚ)) = (p * t) / 100 ∧
      (resolveAmount t a = some 0 →
        scale_up t a = some [] ∧ scale_down t a = some []) := by
  refine ⟨?_, by decide, ?_, ?_, by decide, ?_,
    pyInt_pct_of_target p t hp ht, fun h => ⟨?_, ?_⟩⟩
  · rw [scale_up, resolveAmount_10pct]; rfl
  · rw [scale_up, resolveAmount_0pct]; rfl
  · rw [scale_down, resolveAmount_10pct]; rfl
  · rw [scale_down, resolveAmount_0pct]; rfl
  · rw [scale_up, h]; rfl
  · rw [scale_down, h]; rfl

/-- Claim C4, witness. -/
theorem scale_percentage_resolution_witness :
    scale_up 100 (PyArg.str "0%") = some [] ∧
      scale_down 100 (PyArg.str "0%") = some [] := by
  exact (scale_percentage_resolution 10 100 (by decide) (by decide)
    (PyArg.str "0%")).2.2.2.2.2.2.2 resolveAmount_0pct

lemma batchFragment_str_ok (s : String) :
    ∃ r, batchFragment (PyArg.str s) = Except.ok r := by
  rw [batchFragment]
  by_cases h : containsPct (PyArg.str s) = true
  · exact ⟨pyStr (PyArg.str s), by rw [if_pos h]⟩
  · refine ⟨s ++ " instances", ?_⟩
    rw [if_neg h]
    rfl

lemma workRoll_str_sibling (s : String) (v : RollTarget)
    (hr : v.rollOutcome = Except.ok ()) (hn : ∃ m, v.nameOutcome = Except.ok m) :
    workRoll (PyArg.str s) v = some true := by
  obtain ⟨m, hm⟩ := hn
  obtain ⟨r, hf⟩ := batchFragment_str_ok s
  rw [workRoll, hr, hm, hf]

lemma workRoll_fail (b : PyArg) (v : RollTarget) (err : String)
    (hr : v.rollOutcome = Except.error err)
    (hn : ∃ m, v.nameOutcome = Except.ok m) :
    workRoll b v = some false := by
  obtain ⟨m, hm⟩ := hn
  rw [workRoll, hr, hm]

lemma workRoll_int_always_false (n : Int) (v : RollTarget)
    (hn : ∃ m, v.nameOutcome = Except.ok m) :
    workRoll (PyArg.int n) v = some false := by
  obtain ⟨m, hm⟩ := hn
  cases hr : v.rollOutcome with
  | ok u => rw [workRoll, hr, hm]; rfl
  | error e => rw [workRoll, hr, hm]

/-- Claim C5, counterexample.  A roll task with the integer batch 20 (a
sanctioned batch type — `RollTask.batch` is `Optional[Union[str, int]]`)
over three targets whose names are readable and whose rolls succeed, fail,
succeed: the success report's `self.batch + ' instances'` raises
`TypeError` inside the `try` of every successful unit, so all three units
are recorded `False` — the failing unit's recorded outcome is not distinct
from its siblings', which are failures too despite their successful
mutating calls. -/
theorem rollTask_int_batch_cex :
    runRollTask (PyArg.int 20)
        [⟨"sig-1", Except.ok (), Except.ok "group-1"⟩,
          ⟨"sig-2", Except.error "API error", Except.ok "group-2"⟩,
          ⟨"sig-3", Except.ok (), Except.ok "group-3"⟩] =
        [("sig-1", some false), ("sig-2", some false),
          ("sig-3", some false)] ∧
      ([("sig-1", some false), ("sig-2", some false), ("sig-3", some false)] :
          List (String × Option Bool)) ≠
        [("sig-1", some true), ("sig-2", some false), ("sig-3", some true)] := by
  exact ⟨by decide, by decide⟩

/-- Claim C5, amended.  If exactly one target's mutating call raises,
`run()` still attempts every unit and returns normally with one record per
unit (the failure never propagates outside its unit).  The recorded
outcomes reflect the whole `try` block, success report included: when the
task's batch is a string (so the report's batch fragment evaluates) and
every unit's target name is readable, the failing unit is recorded `False`,
distinct from its siblings' `True`; but with an integer batch the success
report's `self.batch + ' instances'` raises `TypeError` inside the `try`,
so every unit whose name is readable — successful rolls included — is
recorded `False`. -/
theorem rollTask_fanout_outcomes (s : String) (pre post : List RollTarget)
    (t : RollTarget) (err : String) (n : Int) (u : RollTarget)
    (hfail : t.rollOutcome = Except.error err)
    (htn : ∃ m, t.nameOutcome = Except.ok m)
    (hpre : ∀ v ∈ pre, v.rollOutcome = Except.ok () ∧
      ∃ m, v.nameOutcome = Except.ok m)
    (hpost : ∀ v ∈ post, v.rollOutcome = Except.ok () ∧
      ∃ m, v.nameOutcome = Except.ok m)
    (hun : ∃ m, u.nameOutcome = Except.ok m) :
    runRollTask (PyArg.str s) (pre ++ t :: post) =
        (pre.map fun v => (v.id, some true)) ++
          (t.id, some false) :: (post.map fun v => (v.id, some true)) ∧
      (runRollTask (PyArg.str s) (pre ++ t :: post)).length =
        pre.length + 1 + post.length ∧
      workRoll (PyArg.int n) u = some false := by
  have hmap : ∀ l : List RollTarget,
      (∀ v ∈ l, v.rollOutcome = Except.ok () ∧
        ∃ m, v.nameOutcome = Except.ok m) →
      (l.map fun v => (v.id, workRoll (PyArg.str s) v)) =
        l.map fun v => (v.id, some true) := by
    intro l hl
    apply List.map_congr_left
    intro v hv
    rw [workRoll_str_sibling s v (hl v hv).1 (hl v hv).2]
  refine ⟨?_, ?_, workRoll_int_always_false n u hun⟩
  · simp only [runRollTask, List.map_append, List.map_cons]
    rw [hmap pre hpre, hmap post hpost, workRoll_fail (PyArg.str s) t err hfail htn]
  · simp only [runRollTask, List.length_map, List.length_append,
      List.length_cons]
    omega

/-- Claim C5 (amended), witness. -/
theorem rollTask_fanout_outcomes_witness :
    runRollTask (PyArg.str "20%")
        [⟨"sig-1", Except.ok (), Except.ok "group-1"⟩,
          ⟨"sig-2", Except.error "API error", Except.ok "group-2"⟩,
          ⟨"sig-3", Except.ok (), Except.ok "group-3"⟩] =
      [("sig-1", some true), ("sig-2", some false), ("sig-3", some true)] := by
  have h := rollTask_fanout_outcomes "20%"
    [⟨"sig-1", Except.ok (), Except.ok "group-1"⟩]
    [⟨"sig-3", Except.ok (), Except.ok "group-3"⟩]
    ⟨"sig-2", Except.error "API error", Except.ok "group-2"⟩ "API error" 20
    ⟨"sig-4", Except.ok (), Except.ok "group-4"⟩ rfl ⟨"group-2", rfl⟩
    (fun v hv => by
      rw [List.mem_singleton] at hv
      subst hv
      exact ⟨rfl, "group-1", rfl⟩)
    (fun v hv => by
      rw [List.mem_singleton] at hv
      subst hv
      exact ⟨rfl, "group-3", rfl⟩)
    ⟨"group-4", rfl⟩
  exact h.1

lemma fetchGroup_cases (st : EGState) :
    ((fetchGroup st).2.cache = st.cache ∧
        (fetchGroup st).2.fetches = st.fetches) ∨
      (st.cache = Option.none ∧ (fetchGroup st).2.cache = some st.remote ∧
        (fetchGroup st).2.fetches = st.fetches + 1) := by
  cases hc : st.cache with
  | some d => exact Or.inl (by simp [fetchGroup, hc])
  | none => exact Or.inr ⟨rfl, by simp [fetchGroup, hc], by simp [fetchGroup, hc]⟩

lemma scaleStep_cases (st : EGState) (a : PyArg) (sign : Int) :
    ((scaleStep st a sign).cache = st.cache ∧
        (scaleStep st a sign).fetches = st.fetches) ∨
      (st.cache = Option.none ∧ (scaleStep st a sign).cache = some st.remote ∧
        (scaleStep st a sign).fetches = st.fetches + 1) := by
  unfold scaleStep
  dsimp only
  repeat' split
  all_goals first
    | exact Or.inl ⟨rfl, rfl⟩
    | (rcases fetchGroup_cases st with ⟨h1, h2⟩ | ⟨h0, h1, h2⟩
       · exact Or.inl ⟨h1, h2⟩
       · exact Or.inr ⟨h0, h1, h2⟩)

lemma stepOp_cases (st : EGState) (op : EGOp) :
    ((stepOp st op).cache = st.cache ∧ (stepOp st op).fetches = st.fetches) ∨
      (st.cache = Option.none ∧ (stepOp st op).cache = some st.remote ∧
        (stepOp st op).fetches = st.fetches + 1) := by
  cases op with
  | readCapacity => exact fetchGroup_cases st
  | setCapacity p => exact Or.inl ⟨rfl, rfl⟩
  | rollOp batch grace =>
    simp only [stepOp]
    repeat' split
    all_goals first
      | exact Or.inl ⟨rfl, rfl⟩
      | exact fetchGroup_cases st
  | suspendOp p => exact Or.inl ⟨rfl, rfl⟩
  | unsuspendOp p => exact Or.inl ⟨rfl, rfl⟩
  | scaleUpOp a => exact scaleStep_cases st a 1
  | scaleDownOp a => exact scaleStep_cases st a (-1)

lemma stepOp_cache_stable (st : EGState) (op : EGOp) (d : GroupData)
    (h : st.cache = some d) : (stepOp st op).cache = some d := by
  rcases stepOp_cases st op with ⟨h1, _⟩ | ⟨h0, _, _⟩
  · rw [h1, h]
  · rw [h] at h0
    cases h0

lemma runOps_cache_stable (ops : List EGOp) (st : EGState) (d : GroupData)
    (h : st.cache = some d) : (runOps st ops).cache = some d := by
  induction ops generalizing st with
  | nil => exact h
  | cons op ops ih =>
    exact ih (stepOp st op) (stepOp_cache_stable st op d h)

lemma stepOp_fetch_inv (st : EGState) (op : EGOp)
    (h0 : st.cache = Option.none → st.fetches = 0) (h1 : st.fetches ≤ 1) :
    ((stepOp st op).cache = Option.none → (stepOp st op).fetches = 0) ∧
      (stepOp st op).fetches ≤ 1 := by
  rcases stepOp_cases st op with ⟨hc, hf⟩ | ⟨hc, hsome, hf⟩
  · rw [hc, hf]
    exact ⟨h0, h1⟩
  · rw [hsome, hf, h0 hc]
    refine ⟨fun h => ?_, by norm_num⟩
    exact Option.noConfusion h

lemma runOps_fetch_inv (ops : List EGOp) (st : EGState)
    (h0 : st.cache = Option.none → st.fetches = 0) (h1 : st.fetches ≤ 1) :
    (runOps st ops).fetches ≤ 1 := by
  induction ops generalizing st with
  | nil => exact h1
  | cons op ops ih =>
    obtain ⟨g0, g1⟩ := stepOp_fetch_inv st op h0 h1
    exact ih (stepOp st op) g0 g1

/-- Claim C6.  For one handle: if the descriptor is cached, it stays
cached and unchanged across any sequence of operations — no mutating
operation invalidates or refreshes it — so a capacity read afterwards
still returns the descriptor cached before the mutations (even though the
remote side may have changed); and starting from a handle that has never
fetched, any operation sequence issues at most one `get_elastigroup`
fetch (the first descriptor access memoizes). -/
theorem descriptor_cache_never_invalidated (ops : List EGOp) (st : EGState)
    (d : GroupData) :
    (st.cache = some d →
        (runOps st ops).cache = some d ∧ (fetchGroup (runOps st ops)).1 = d) ∧
      ((st.cache = Option.none → st.fetches = 0) → st.fetches ≤ 1 →
        (runOps st ops).fetches ≤ 1) := by
  constructor
  · intro h
    have hc := runOps_cache_stable ops st d h
    exact ⟨hc, by rw [fetchGroup, hc]⟩
  · exact runOps_fetch_inv ops st

/-- Claim C6, witness. -/
theorem descriptor_cache_never_invalidated_witness :
    (runOps cachedHandle mutatingOps).cache = some twoDownGroup ∧
      (fetchGroup (runOps cachedHandle mutatingOps)).1 = twoDownGroup ∧
      (runOps freshHandle readingOps).fetches ≤ 1 := by
  have h1 := (descriptor_cache_never_invalidated mutatingOps cachedHandle
    twoDownGroup).1 rfl
  have h2 := (descriptor_cache_never_invalidated readingOps freshHandle
    twoDownGroup).2 (fun _ => rfl) (by decide)
  exact ⟨h1.1, h1.2, h2⟩

end SpotCLI
